import Mathlib

/-!
Shallow embedding of the boundary-exchange and flux-correction subsystem of the
AthenaK mesh code (files `bvals.cpp` and `flux_correction_cc.cpp`), together
with proofs settling the specification claims about it.

Conventions of the embedding:
* `Real` (C++ `double`) is modelled by `ℚ`; the claims under scrutiny concern
  which values are combined and with which weights, i.e. exact arithmetic.
* Kokkos views are modelled as total functions; a kernel's effect is the
  pointwise-defined function it leaves behind.
* MPI calls are modelled by logs of the posted operations (receives, sends,
  waits); the outcome of `MPI_Test` is an external oracle passed as an
  argument, since message arrival is environment nondeterminism.
-/

/-- Status values of `BoundaryCommStatus` in `bvals.hpp` / `bvals.cpp`. -/
inductive BoundaryCommStatus where
  | undef
  | waiting
  | received
deriving DecidableEq, Repr

/-- Return values of the boundary-exchange task functions. -/
inductive TaskStatus where
  | complete
  | incomplete
deriving DecidableEq, Repr

/-- One entry of the `nghbr` array: the per-(block, slot) neighbor record
(global id with `-1` sentinel, refinement level, owning rank, destination
slot index, and the flux-relevance flag `ccflx`). -/
structure NeighborBlock where
  gid : Int
  lev : Int
  rank : Nat
  dest : Nat
  ccflx : Bool
deriving DecidableEq, Repr

/-- The constructor `BoundaryValues::BoundaryValues` builds each per-slot
status vector by pushing one `undef` entry per MeshBlock of the pack
(`bvals.cpp` lines 28-50).  This is the vector produced for one slot. -/
def ctorStatusVec (nmb : Nat) : List BoundaryCommStatus :=
  (List.range nmb).foldl (fun l _ => l ++ [BoundaryCommStatus.undef]) []

/-- Per-slot status vectors after the `BoundaryValues` constructor: each of
the four vectors (`send var_stat`, `recv var_stat`, `send flx_stat`,
`recv flx_stat`) of each of the `nnghbr` slots is `ctorStatusVec nmb`;
slots outside `[0, nnghbr)` are never pushed to and stay empty. -/
structure CtorBufs where
  sendVar : Nat → List BoundaryCommStatus
  recvVar : Nat → List BoundaryCommStatus
  sendFlx : Nat → List BoundaryCommStatus
  recvFlx : Nat → List BoundaryCommStatus

/-- Result of running the `BoundaryValues` constructor body on a pack of
`nmb` blocks with `nnghbr` neighbor slots. -/
def boundaryValuesCtor (nmb nnghbr : Nat) : CtorBufs where
  sendVar := fun n => if n < nnghbr then ctorStatusVec nmb else []
  recvVar := fun n => if n < nnghbr then ctorStatusVec nmb else []
  sendFlx := fun n => if n < nnghbr then ctorStatusVec nmb else []
  recvFlx := fun n => if n < nnghbr then ctorStatusVec nmb else []

/-- Auxiliary: the constructor's fold produces `nmb` copies of `undef`. -/
theorem ctorStatusVec_eq_replicate (nmb : Nat) :
    ctorStatusVec nmb = List.replicate nmb BoundaryCommStatus.undef := by
  unfold ctorStatusVec
  induction nmb with
  | zero => rfl
  | succ k ih =>
      rw [List.range_succ, List.foldl_append]
      simp [ih, List.replicate_succ' (n := k)]

/-- Indices iterated by the diagnostic print loop at the end of
`BoundaryValues::InitializeBuffers` (`bvals.cpp` lines 182-190):
`for (int n=0; n<=nnghbr; ++n)` visits `0, 1, ..., nnghbr` inclusive. -/
def printLoopIndices (nnghbr : Nat) : List Nat :=
  List.range (nnghbr + 1)

/-- C9: every index used by `InitializeBuffers` to access `send_buf[n]` /
`recv_buf[n]`, including the diagnostic print loop, lies in `[0, nnghbr-1]`.
REFUTED by the code: the print loop runs `n` from `0` to `nnghbr`
inclusive, so it accesses `send_buf[nnghbr]` and `recv_buf[nnghbr]`, one
slot past the valid range `[0, nnghbr-1]` (modelled as `List.range nnghbr`),
for every pack configuration. -/
theorem c9_print_loop_out_of_range :
    ∀ nnghbr : Nat,
      nnghbr ∈ printLoopIndices nnghbr ∧ nnghbr ∉ List.range nnghbr := by
  intro nnghbr
  constructor
  · simp [printLoopIndices]
  · simp

/-- C10: after the `BoundaryValues` constructor and before any `InitRecv`,
for every slot `n < nnghbr` and block `m < nmb` all four status flags
(variable send/receive, flux send/receive) are `undef` (in particular not
`waiting`), and each per-slot status vector has exactly one entry per block
of the pack. -/
theorem c10_ctor_all_undef (nmb nnghbr n m : Nat)
    (hn : n < nnghbr) (hm : m < nmb) :
    ((boundaryValuesCtor nmb nnghbr).sendVar n).length = nmb ∧
    ((boundaryValuesCtor nmb nnghbr).recvVar n).length = nmb ∧
    ((boundaryValuesCtor nmb nnghbr).sendFlx n).length = nmb ∧
    ((boundaryValuesCtor nmb nnghbr).recvFlx n).length = nmb ∧
    ((boundaryValuesCtor nmb nnghbr).sendVar n).get? m =
      some BoundaryCommStatus.undef ∧
    ((boundaryValuesCtor nmb nnghbr).recvVar n).get? m =
      some BoundaryCommStatus.undef ∧
    ((boundaryValuesCtor nmb nnghbr).sendFlx n).get? m =
      some BoundaryCommStatus.undef ∧
    ((boundaryValuesCtor nmb nnghbr).recvFlx n).get? m =
      some BoundaryCommStatus.undef := by
  simp only [boundaryValuesCtor, if_pos hn, ctorStatusVec_eq_replicate]
  refine ⟨?_, ?_, ?_, ?_, ?_, ?_, ?_, ?_⟩ <;>
    simp [List.get?_eq_getElem?, List.getElem?_replicate, hm]

/-- Witness for C10 at the concrete pack `nmb = 3`, `nnghbr = 56`,
slot `5`, block `2`. -/
theorem c10_witness :
    ((boundaryValuesCtor 3 56).recvFlx 5).length = 3 ∧
    ((boundaryValuesCtor 3 56).recvFlx 5).get? 2 =
      some BoundaryCommStatus.undef :=
  ⟨(c10_ctor_all_undef 3 56 5 2 (by decide) (by decide)).2.2.2.1,
   (c10_ctor_all_undef 3 56 5 2 (by decide) (by decide)).2.2.2.2.2.2.2⟩

/-- Modelled from the spec: the mesh layer's `MeshBlock::NeighborIndx`
(declared in `mesh.hpp`, not among the provided sources) maps a neighbor
direction `(i, j, k)` with components in `{-1, 0, 1}` and sub-slot indices
`(f1, f2)` to the fixed slot enumeration the spec and the source comments
describe: x1 faces `[0..7]`, x2 faces `[8..15]`, x1x2 edges `[16..23]`,
x3 faces `[24..31]`, x3x1 edges `[32..39]`, x2x3 edges `[40..47]`,
corners `[48..55]`, with two sub-slots per remaining degree of freedom. -/
def NeighborIndx (i j k : Int) (f1 f2 : Nat) : Nat :=
  if k = 0 then
    if j = 0 then
      f1 + 2 * f2 + 4 * ((i + 1) / 2).toNat
    else if i = 0 then
      8 + f1 + 2 * f2 + 4 * ((j + 1) / 2).toNat
    else
      16 + f1 + 2 * ((i + 1) / 2).toNat + 4 * ((j + 1) / 2).toNat
  else
    if j = 0 then
      if i = 0 then
        24 + f1 + 2 * f2 + 4 * ((k + 1) / 2).toNat
      else
        32 + f1 + 2 * ((i + 1) / 2).toNat + 4 * ((k + 1) / 2).toNat
    else
      if i = 0 then
        40 + f1 + 2 * ((j + 1) / 2).toNat + 4 * ((k + 1) / 2).toNat
      else
        48 + ((i + 1) / 2).toNat + 2 * ((j + 1) / 2).toNat +
          4 * ((k + 1) / 2).toNat

/-- Sequence of slot indices for which `BoundaryValues::InitializeBuffers`
calls `InitSendIndices` / `InitRecvIndices` / `AllocateDataView`
(`bvals.cpp` lines 68-178), in loop order, as a function of the mesh flags
`multilevel`, `multi_d`, `three_d`.  The sub-slot counts are
`nfx = nfy = nfz = 1` on a uniform grid, and `nfx = 2`, `nfy = 2` (if
multi-dimensional), `nfz = 2` (if three-dimensional) on a multilevel mesh. -/
def initializeBuffersSlots (ml md td : Bool) : List Nat :=
  let nfx : Nat := if ml then 2 else 1
  let nfy : Nat := if ml ∧ md then 2 else 1
  let nfz : Nat := if ml ∧ td then 2 else 1
  let x1faces := [(-1 : Int), 1].flatMap fun n =>
    (List.range nfz).flatMap fun fz =>
      (List.range nfy).map fun fy => NeighborIndx n 0 0 fy fz
  let x2faces := [(-1 : Int), 1].flatMap fun m =>
    (List.range nfz).flatMap fun fz =>
      (List.range nfx).map fun fx => NeighborIndx 0 m 0 fx fz
  let x1x2edges := [(-1 : Int), 1].flatMap fun m =>
    [(-1 : Int), 1].flatMap fun n =>
      (List.range nfz).map fun fz => NeighborIndx n m 0 fz 0
  let x3faces := [(-1 : Int), 1].flatMap fun l =>
    (List.range nfy).flatMap fun fy =>
      (List.range nfx).map fun fx => NeighborIndx 0 0 l fx fy
  let x3x1edges := [(-1 : Int), 1].flatMap fun l =>
    [(-1 : Int), 1].flatMap fun n =>
      (List.range nfy).map fun fy => NeighborIndx n 0 l fy 0
  let x2x3edges := [(-1 : Int), 1].flatMap fun l =>
    [(-1 : Int), 1].flatMap fun m =>
      (List.range nfx).map fun fx => NeighborIndx 0 m l fx 0
  let corners := [(-1 : Int), 1].flatMap fun l =>
    [(-1 : Int), 1].flatMap fun m =>
      [(-1 : Int), 1].map fun n => NeighborIndx n m l 0 0
  x1faces ++
    (if md then x2faces ++ x1x2edges else []) ++
    (if td then x3faces ++ x3x1edges ++ x2x3edges ++ corners else [])

/-- A slot index whose direction has a nonzero x2 component: x2 faces,
x1x2 edges, x2x3 edges and corners (from the slot enumeration). -/
def slotDirHasX2 (s : Nat) : Bool :=
  (8 ≤ s && s < 24) || 40 ≤ s

/-- A slot index whose direction has a nonzero x3 component: x3 faces and
every edge/corner involving x3 (from the slot enumeration). -/
def slotDirHasX3 (s : Nat) : Bool :=
  24 ≤ s

/-- Characterization of the slot enumeration: over the whole direction and
sub-slot domain, the slot index is below 56, lies in an x2-bearing range
exactly when the direction's x2 component is nonzero, and in an x3-bearing
range exactly when the x3 component is nonzero. -/
theorem neighborIndx_char :
    ∀ i ∈ [(-1 : Int), 0, 1], ∀ j ∈ [(-1 : Int), 0, 1],
      ∀ k ∈ [(-1 : Int), 0, 1], ∀ f1 ∈ [0, 1], ∀ f2 ∈ [0, 1],
        NeighborIndx i j k f1 f2 < 56 ∧
        (slotDirHasX2 (NeighborIndx i j k f1 f2) = true ↔ j ≠ 0) ∧
        (slotDirHasX3 (NeighborIndx i j k f1 f2) = true ↔ k ≠ 0) := by
  decide

/-- C8: `InitializeBuffers` allocates buffers exactly for the slots valid
for the mesh dimensionality, in the fixed order x1 faces `[0..7]`, then
(multi-d only) x2 faces `[8..15]` and x1x2 edges `[16..23]`, then (3-d
only) x3 faces `[24..31]`, x3x1 edges `[32..39]`, x2x3 edges `[40..47]`
and corners `[48..55]` — at most 56 slots, attained for full 3-D AMR —
and never for a slot whose direction has a nonzero component along a
collapsed axis (x2-bearing slots only when multi-d, x3-bearing slots only
when three-d, given that a three-d mesh is also multi-d). -/
theorem c8_initialize_buffers_slots :
    initializeBuffersSlots true true true = List.range 56 ∧
    initializeBuffersSlots true true false =
      [0, 1, 4, 5, 8, 9, 12, 13, 16, 18, 20, 22] ∧
    initializeBuffersSlots true false false = [0, 4] ∧
    ∀ ml md td : Bool, (td = true → md = true) →
      ∀ s ∈ initializeBuffersSlots ml md td,
        s < 56 ∧ (md = false → slotDirHasX2 s = false) ∧
          (td = false → slotDirHasX3 s = false) := by
  refine ⟨by decide, by decide, by decide, ?_⟩
  intro ml md td htd
  cases ml <;> cases md <;> cases td <;> revert htd <;> decide

/-- Witness for C8: the 1-D AMR configuration, slot `4` (the `+x1` face). -/
theorem c8_witness :
    4 < 56 ∧ (false = false → slotDirHasX2 4 = false) ∧
      (false = false → slotDirHasX3 4 = false) :=
  c8_initialize_buffers_slots.2.2.2 true false false (fun h => h) 4 (by decide)

/-- State of one `BoundaryValues` instance over a pack of blocks, as read by
`InitRecv` / `ClearRecv` / `ClearSend` in `bvals.cpp`: block count, slot
count, the neighbor table, per-block levels, the three precomputed window
sizes of each receive buffer, and the per-(slot, block) status flags. -/
structure BvState where
  nmb : Nat
  nnghbr : Nat
  nghbr : Nat → Nat → NeighborBlock
  mblev : Nat → Int
  coarNdat : Nat → Nat
  sameNdat : Nat → Nat
  fineNdat : Nat → Nat
  var_stat : Nat → Nat → BoundaryCommStatus
  flx_stat : Nat → Nat → BoundaryCommStatus

/-- Size argument of the `MPI_Irecv` posted by `InitRecv` for pair `(m, n)`
(`bvals.cpp` lines 222-229): the coarser / same / finer window size of the
receive buffer, selected by comparing the neighbor's level with the block's
level, times `nvar`. -/
def recvDataSize (s : BvState) (nvar m n : Nat) : Nat :=
  if (s.nghbr m n).lev < s.mblev m then s.coarNdat n * nvar
  else if (s.nghbr m n).lev = s.mblev m then s.sameNdat n * nvar
  else s.fineNdat n * nvar

/-- Result of `BoundaryValues::InitRecv`: the updated status flags, the log
of posted non-blocking receives (block, slot, message size), and the
returned task status. -/
structure InitRecvResult where
  var_stat : Nat → Nat → BoundaryCommStatus
  flx_stat : Nat → Nat → BoundaryCommStatus
  posts : List (Nat × Nat × Nat)
  status : TaskStatus

/-- Embedding of `BoundaryValues::InitRecv` (`bvals.cpp` lines 203-242):
for every pair `(m, n)` with a valid neighbor (`gid >= 0`) it posts a
non-blocking receive when the neighbor lives on a different rank, sized by
`recvDataSize`, and sets both receive status flags to `waiting`; it then
returns `complete`. -/
def initRecv (s : BvState) (nvar myRank : Nat) : InitRecvResult where
  var_stat := fun n m =>
    if m < s.nmb ∧ n < s.nnghbr ∧ (s.nghbr m n).gid ≥ 0 then
      BoundaryCommStatus.waiting
    else s.var_stat n m
  flx_stat := fun n m =>
    if m < s.nmb ∧ n < s.nnghbr ∧ (s.nghbr m n).gid ≥ 0 then
      BoundaryCommStatus.waiting
    else s.flx_stat n m
  posts :=
    ((List.range s.nmb ×ˢ List.range s.nnghbr).filter
        (fun p => decide ((s.nghbr p.1 p.2).gid ≥ 0) &&
          decide ((s.nghbr p.1 p.2).rank ≠ myRank))).map
      (fun p => (p.1, p.2, recvDataSize s nvar p.1 p.2))
  status := TaskStatus.complete

/-- Result of `ClearRecv` / `ClearSend`: the log of `MPI_Wait` calls made
(one per waited pair) together with the untouched status flags and the
returned task status. -/
structure ClearResult where
  waits : List (Nat × Nat)
  var_stat : Nat → Nat → BoundaryCommStatus
  flx_stat : Nat → Nat → BoundaryCommStatus
  status : TaskStatus

/-- Embedding of `BoundaryValues::ClearRecv` (`bvals.cpp` lines 249-268):
it calls `MPI_Wait` on `recv_buf[n].comm_req[m]` for every pair with a
valid neighbor on a different rank, mutates no status flag, and returns
`complete`. -/
def clearRecv (s : BvState) (myRank : Nat) : ClearResult where
  waits :=
    (List.range s.nmb ×ˢ List.range s.nnghbr).filter
      (fun p => decide ((s.nghbr p.1 p.2).gid ≥ 0) &&
        decide ((s.nghbr p.1 p.2).rank ≠ myRank))
  var_stat := s.var_stat
  flx_stat := s.flx_stat
  status := TaskStatus.complete

/-- Embedding of `BoundaryValues::ClearSend` (`bvals.cpp` lines 275-294):
identical to `clearRecv` except that the waits are on the send-side
request handles `send_buf[n].comm_req[m]`. -/
def clearSend (s : BvState) (myRank : Nat) : ClearResult where
  waits :=
    (List.range s.nmb ×ˢ List.range s.nnghbr).filter
      (fun p => decide ((s.nghbr p.1 p.2).gid ≥ 0) &&
        decide ((s.nghbr p.1 p.2).rank ≠ myRank))
  var_stat := s.var_stat
  flx_stat := s.flx_stat
  status := TaskStatus.complete

/-- C6: `InitRecv` sets both receive status flags of every valid
(block, slot) pair to `waiting`; its posted receives are exactly one per
valid cross-rank pair, sized as `nvar` times the coarser / same / finer
window size chosen by comparing the neighbor level with the block level;
and it returns `complete`. -/
theorem c6_initrecv_waiting_and_sizes (s : BvState) (nvar myRank : Nat) :
    (∀ m n, m < s.nmb → n < s.nnghbr → (s.nghbr m n).gid ≥ 0 →
      (initRecv s nvar myRank).var_stat n m = BoundaryCommStatus.waiting ∧
      (initRecv s nvar myRank).flx_stat n m = BoundaryCommStatus.waiting) ∧
    (∀ m n sz, (m, n, sz) ∈ (initRecv s nvar myRank).posts ↔
      (m < s.nmb ∧ n < s.nnghbr ∧ (s.nghbr m n).gid ≥ 0 ∧
        (s.nghbr m n).rank ≠ myRank ∧
        sz = nvar * (if (s.nghbr m n).lev < s.mblev m then s.coarNdat n
          else if (s.nghbr m n).lev = s.mblev m then s.sameNdat n
          else s.fineNdat n))) ∧
    ((initRecv s nvar myRank).posts.map (fun p => (p.1, p.2.1))).Nodup ∧
    (initRecv s nvar myRank).status = TaskStatus.complete := by
  refine ⟨?_, ?_, ?_, rfl⟩
  · intro m n hm hn hg
    constructor <;> simp [initRecv, hm, hn, hg]
  · intro m n sz
    show (m, n, sz) ∈ List.map _ (List.filter _ _) ↔ _
    rw [List.mem_map]
    constructor
    · rintro ⟨⟨p1, p2⟩, hp, heq⟩
      rw [List.mem_filter] at hp
      obtain ⟨hmem, hcond⟩ := hp
      rw [List.mem_product, List.mem_range, List.mem_range] at hmem
      simp only [Bool.and_eq_true, decide_eq_true_eq] at hcond
      simp only [Prod.mk.injEq] at heq
      obtain ⟨h1, h2, h3⟩ := heq
      subst h1; subst h2
      refine ⟨hmem.1, hmem.2, hcond.1, hcond.2, ?_⟩
      rw [← h3]
      unfold recvDataSize
      split_ifs <;> exact Nat.mul_comm _ _
    · rintro ⟨hm, hn, hg, hr, hsz⟩
      refine ⟨(m, n), ?_, ?_⟩
      · rw [List.mem_filter, List.mem_product, List.mem_range, List.mem_range]
        exact ⟨⟨hm, hn⟩, by simp [hg, hr]⟩
      · simp only [Prod.mk.injEq, true_and]
        rw [hsz]
        unfold recvDataSize
        split_ifs <;> exact Nat.mul_comm _ _
  · have h : ((initRecv s nvar myRank).posts.map (fun p => (p.1, p.2.1))) =
        ((List.range s.nmb ×ˢ List.range s.nnghbr).filter
          (fun p => decide ((s.nghbr p.1 p.2).gid ≥ 0) &&
            decide ((s.nghbr p.1 p.2).rank ≠ myRank))) := by
      simp [initRecv, List.map_map, Function.comp_def]
    rw [h]
    exact ((List.nodup_range s.nmb).product (List.nodup_range s.nnghbr)).filter _

/-- Concrete one-block two-slot state used by the witnesses: slot 0 holds a
valid finer neighbor on another rank, slot 1 is a physical boundary. -/
def bvTestState : BvState where
  nmb := 1
  nnghbr := 2
  nghbr := fun _ n =>
    if n = 0 then ⟨0, 1, 1, 0, false⟩ else ⟨-1, 0, 0, 0, false⟩
  mblev := fun _ => 0
  coarNdat := fun _ => 3
  sameNdat := fun _ => 5
  fineNdat := fun _ => 9
  var_stat := fun _ _ => BoundaryCommStatus.waiting
  flx_stat := fun _ _ => BoundaryCommStatus.waiting

/-- Witness for C6: on `bvTestState` with `nvar = 2` the valid pair's flag
is set to `waiting` and a receive of size `2 * fineNdat = 18` is posted. -/
theorem c6_witness :
    (initRecv bvTestState 2 0).var_stat 0 0 = BoundaryCommStatus.waiting ∧
    (0, 0, 18) ∈ (initRecv bvTestState 2 0).posts :=
  ⟨((c6_initrecv_waiting_and_sizes bvTestState 2 0).1 0 0 (by decide)
      (by decide) (by decide)).1,
   ((c6_initrecv_waiting_and_sizes bvTestState 2 0).2.1 0 0 18).mpr
      (by refine ⟨by decide, by decide, by decide, by decide, by decide⟩)⟩

/-- C7 counterexample: on `bvTestState` the pair `(0, 0)` is cross-rank,
valid, and `waiting` when `ClearRecv` is called, yet after `ClearRecv`
returns its receive status is still `waiting`, not `received`: `ClearRecv`
only calls `MPI_Wait` on the request handles and never touches the status
flags, so the claim's first sentence fails on the code. -/
theorem c7_counterexample :
    bvTestState.var_stat 0 0 = BoundaryCommStatus.waiting ∧
    bvTestState.flx_stat 0 0 = BoundaryCommStatus.waiting ∧
    (bvTestState.nghbr 0 0).gid ≥ 0 ∧ (bvTestState.nghbr 0 0).rank ≠ 0 ∧
    (clearRecv bvTestState 0).var_stat 0 0 ≠ BoundaryCommStatus.received ∧
    (clearRecv bvTestState 0).flx_stat 0 0 ≠ BoundaryCommStatus.received := by
  refine ⟨rfl, rfl, by decide, by decide, by decide, by decide⟩

/-- C7 (amended): `ClearRecv` and `ClearSend` wait exactly on the request
handles of (block, slot) pairs with a valid neighbor on a different rank —
same-rank pairs and invalid slots involve no wait — leave every status
flag unchanged (a flag that was `waiting` stays `waiting` until the next
`InitRecv` resets it), and always return `complete`. -/
theorem c7_amended_clear_waits_only_cross_rank (s : BvState) (myRank : Nat) :
    (∀ m n, (m, n) ∈ (clearRecv s myRank).waits ↔
      (m < s.nmb ∧ n < s.nnghbr ∧ (s.nghbr m n).gid ≥ 0 ∧
        (s.nghbr m n).rank ≠ myRank)) ∧
    (clearRecv s myRank).var_stat = s.var_stat ∧
    (clearRecv s myRank).flx_stat = s.flx_stat ∧
    (clearRecv s myRank).status = TaskStatus.complete ∧
    (∀ m n, (m, n) ∈ (clearSend s myRank).waits ↔
      (m < s.nmb ∧ n < s.nnghbr ∧ (s.nghbr m n).gid ≥ 0 ∧
        (s.nghbr m n).rank ≠ myRank)) ∧
    (clearSend s myRank).var_stat = s.var_stat ∧
    (clearSend s myRank).flx_stat = s.flx_stat ∧
    (clearSend s myRank).status = TaskStatus.complete := by
  refine ⟨?_, rfl, rfl, rfl, ?_, rfl, rfl, rfl⟩ <;>
  · intro m n
    simp only [clearRecv, clearSend]
    rw [List.mem_filter, List.mem_product, List.mem_range, List.mem_range]
    simp [and_assoc]

/-- One set of buffer flux indices (`send_buf[n].flux[0]` resp.
`recv_buf[n].flux[0]` in `flux_correction_cc.cpp`): the inclusive window
`bis..bie × bjs..bje × bks..bke`. -/
structure BufWindow where
  bis : Int
  bie : Int
  bjs : Int
  bje : Int
  bks : Int
  bke : Int
deriving DecidableEq, Repr

/-- Extent `ni = iu - il + 1` of a window along x1. -/
def BufWindow.ni (w : BufWindow) : Int := w.bie - w.bis + 1

/-- Extent `nj = ju - jl + 1` of a window along x2. -/
def BufWindow.nj (w : BufWindow) : Int := w.bje - w.bjs + 1

/-- Extent `nk = ku - kl + 1` of a window along x3. -/
def BufWindow.nk (w : BufWindow) : Int := w.bke - w.bks + 1

/-- Cell `(i, j, k)` lies in the inclusive window. -/
def BufWindow.mem (w : BufWindow) (i j k : Int) : Prop :=
  w.bis ≤ i ∧ i ≤ w.bie ∧ w.bjs ≤ j ∧ j ≤ w.bje ∧ w.bks ≤ k ∧ k ≤ w.bke

instance (w : BufWindow) (i j k : Int) : Decidable (w.mem i j k) := by
  unfold BufWindow.mem
  infer_instance

/-- Flattened buffer offset computed at the pack sites of
`PackAndSendFluxCC` (`flux_correction_cc.cpp` lines 98, 101, 122, 125,
141, 144): `i-il + ni*(j-jl + nj*(k-kl))`. -/
def flatIdxPack (w : BufWindow) (i j k : Int) : Int :=
  i - w.bis + w.ni * (j - w.bjs + w.nj * (k - w.bks))

/-- Flattened buffer offset computed at the unpack sites of
`RecvAndUnpackFluxCC` (`flux_correction_cc.cpp` lines 275, 284, 293):
`i-il + ni*(j-jl + nj*(k-kl))`. -/
def flatIdxUnpack (w : BufWindow) (i j k : Int) : Int :=
  i - w.bis + w.ni * (j - w.bjs + w.nj * (k - w.bks))

/-- Cells of a window enumerated in the kernel's loop order (`k` outermost,
then `j`, then `i`). -/
def windowCells (w : BufWindow) : List (Int × Int × Int) :=
  (List.range w.nk.toNat).flatMap fun (dk : Nat) =>
    (List.range w.nj.toNat).flatMap fun (dj : Nat) =>
      (List.range w.ni.toNat).map fun (di : Nat) =>
        (w.bis + (di : Int), w.bjs + (dj : Int), w.bks + (dk : Int))

/-- Membership in the enumerated cell list coincides with the inclusive
window bounds. -/
theorem mem_windowCells (w : BufWindow) (i j k : Int) :
    (i, j, k) ∈ windowCells w ↔ w.mem i j k := by
  unfold windowCells BufWindow.mem BufWindow.ni BufWindow.nj BufWindow.nk
  constructor
  · intro h
    rw [List.mem_flatMap] at h
    obtain ⟨dk, hdk, h⟩ := h
    rw [List.mem_flatMap] at h
    obtain ⟨dj, hdj, h⟩ := h
    rw [List.mem_map] at h
    obtain ⟨di, hdi, heq⟩ := h
    rw [List.mem_range] at hdk hdj hdi
    injection heq with hi hrest
    injection hrest with hj hk
    omega
  · rintro ⟨h1, h2, h3, h4, h5, h6⟩
    rw [List.mem_flatMap]
    refine ⟨(k - w.bks).toNat, by rw [List.mem_range]; omega, ?_⟩
    rw [List.mem_flatMap]
    refine ⟨(j - w.bjs).toNat, by rw [List.mem_range]; omega, ?_⟩
    rw [List.mem_map]
    refine ⟨(i - w.bis).toNat, by rw [List.mem_range]; omega, ?_⟩
    simp only [Prod.mk.injEq]
    refine ⟨by omega, by omega, by omega⟩

/-- Mixed-radix decoding: with digits bounded by the radices, the flattened
offset determines all three digits. -/
theorem mixedRadix_inj (ni nj a b c a' b' c' : Int)
    (ha : 0 ≤ a) (ha2 : a < ni) (ha' : 0 ≤ a') (ha2' : a' < ni)
    (hb : 0 ≤ b) (hb2 : b < nj) (hb' : 0 ≤ b') (hb2' : b' < nj)
    (heq : a + ni * (b + nj * c) = a' + ni * (b' + nj * c')) :
    a = a' ∧ b = b' ∧ c = c' := by
  have hni : 0 < ni := lt_of_le_of_lt ha ha2
  have hnj : 0 < nj := lt_of_le_of_lt hb hb2
  have h1 : a = a' := by
    have hx := congrArg (fun z => z % ni) heq
    simpa [Int.mul_comm, Int.add_mul_emod_self_left,
      Int.emod_eq_of_lt ha ha2, Int.emod_eq_of_lt ha' ha2'] using hx
  rw [h1] at heq
  have h2 : b + nj * c = b' + nj * c' :=
    mul_left_cancel₀ (ne_of_gt hni) (add_left_cancel heq)
  have h3 : b = b' := by
    have hx := congrArg (fun z => z % nj) h2
    simpa [Int.mul_comm, Int.add_mul_emod_self_left,
      Int.emod_eq_of_lt hb hb2, Int.emod_eq_of_lt hb' hb2'] using hx
  rw [h3] at h2
  have h4 : c = c' := mul_left_cancel₀ (ne_of_gt hnj) (add_left_cancel h2)
  exact ⟨h1, h3, h4⟩

/-- The pack-site and unpack-site flattenings are injective on the window:
two window cells with the same flattened offset coincide. -/
theorem flatIdx_injOn (w : BufWindow) (i j k i' j' k' : Int)
    (h : w.mem i j k) (h' : w.mem i' j' k')
    (heq : flatIdxPack w i j k = flatIdxPack w i' j' k') :
    i = i' ∧ j = j' ∧ k = k' := by
  obtain ⟨h1, h2, h3, h4, h5, h6⟩ := h
  obtain ⟨h1', h2', h3', h4', h5', h6'⟩ := h'
  unfold flatIdxPack BufWindow.ni BufWindow.nj at heq
  have := mixedRadix_inj (w.bie - w.bis + 1) (w.bje - w.bjs + 1)
    (i - w.bis) (j - w.bjs) (k - w.bks) (i' - w.bis) (j' - w.bjs) (k' - w.bks)
    (by omega) (by omega) (by omega) (by omega)
    (by omega) (by omega) (by omega) (by omega) heq
  omega

/-- The three face-centered flux arrays of a `DvceFaceFld5D<Real>`,
indexed `(m, v, k, j, i)` as in the source. -/
structure FaceFld where
  x1f : Nat → Nat → Int → Int → Int → ℚ
  x2f : Nat → Nat → Int → Int → Int → ℚ
  x3f : Nat → Nat → Int → Int → Int → ℚ

/-- Mesh geometry read inside the pack kernel: dimensionality flags and the
coarse-grid starting indices `cis`, `cjs`, `cks`. -/
structure MeshCfg where
  one_d : Bool
  two_d : Bool
  cis : Int
  cjs : Int
  cks : Int

/-- State of one `BoundaryValuesCC` instance as read by the flux-correction
pair `PackAndSendFluxCC` / `RecvAndUnpackFluxCC`: counts, neighbor table,
per-block levels, the first global id of the pack (`mb_gid(0)`, equal to
`pmy_pack->gids`), the per-slot send/receive flux windows, the buffer
contents, and the per-(slot, block) flux status flags.  Receive-buffer
block indices are `Int` because the same-rank pack path addresses them as
`gid - mb_gid(0)`. -/
structure FCState where
  nmb : Nat
  nnghbr : Nat
  nvar : Nat
  nghbr : Nat → Nat → NeighborBlock
  mblev : Nat → Int
  gid0 : Int
  sWin : Nat → BufWindow
  rWin : Nat → BufWindow
  sData : Nat → Nat → Nat → Int → ℚ
  rData : Nat → Int → Nat → Int → ℚ
  rFlxStat : Nat → Int → BoundaryCommStatus

/-- The restricted flux `rflx` computed by the pack kernel of
`PackAndSendFluxCC` for pair `(m, n)`, variable `v`, at coarse window cell
`(i, j, k)` (`flux_correction_cc.cpp` lines 79-95, 112-118, 136-138): the
fine indices are `fi = 2i - cis`, `fj = 2j - cjs`, `fk = 2k - cks`; x1
faces average 1 / 2 / 4 `x1f` values in 1-D / 2-D / 3-D, x2 faces average
2 / 4 `x2f` values in 2-D / 3-D, x3 faces average 4 `x3f` values. -/
def rflxVal (cfg : MeshCfg) (F : FaceFld) (m v n : Nat) (i j k : Int) : ℚ :=
  let fi := 2 * i - cfg.cis
  let fj := 2 * j - cfg.cjs
  let fk := 2 * k - cfg.cks
  if n < 8 then
    if cfg.one_d then F.x1f m v 0 0 fi
    else if cfg.two_d then
      (1 / 2) * (F.x1f m v 0 fj fi + F.x1f m v 0 (fj + 1) fi)
    else
      (1 / 4) * (F.x1f m v fk fj fi + F.x1f m v fk (fj + 1) fi +
        F.x1f m v (fk + 1) fj fi + F.x1f m v (fk + 1) (fj + 1) fi)
  else if n < 16 then
    if cfg.two_d then
      (1 / 2) * (F.x2f m v 0 fj fi + F.x2f m v 0 fj (fi + 1))
    else
      (1 / 4) * (F.x2f m v fk fj fi + F.x2f m v fk fj (fi + 1) +
        F.x2f m v (fk + 1) fj fi + F.x2f m v (fk + 1) fj (fi + 1))
  else
    (1 / 4) * (F.x3f m v fk fj fi + F.x3f m v fk fj (fi + 1) +
      F.x3f m v fk (fj + 1) fi + F.x3f m v fk (fj + 1) (fi + 1))

/-- A pair `(m, n)` participates in the pack kernel: the neighbor is
flux-relevant (`ccflx`) and at a coarser level than block `m`. -/
def packsPair (s : FCState) (m n : Nat) : Prop :=
  ((s.nghbr m n).ccflx = true) ∧ (s.nghbr m n).lev < s.mblev m

instance (s : FCState) (m n : Nat) : Decidable (packsPair s m n) := by
  unfold packsPair
  infer_instance

/-- Senders whose same-rank pack write lands in receive buffer slot `nn`,
destination block index `mm`, at flattened offset `idx`: all kernel
instances `(m, n)` with a flux-relevant coarser same-rank neighbor whose
destination coordinates match and one of whose window cells flattens to
`idx`.  Listed in kernel enumeration order. -/
def packWriters (s : FCState) (myRank : Nat) (nn : Nat) (mm : Int)
    (idx : Int) : List (Nat × Nat × (Int × Int × Int)) :=
  ((List.range s.nmb ×ˢ List.range s.nnghbr).flatMap fun p =>
    (windowCells (s.sWin p.2)).map fun c => (p.1, p.2, c)).filter fun t =>
      decide (packsPair s t.1 t.2.1) &&
      decide ((s.nghbr t.1 t.2.1).rank = myRank) &&
      decide ((s.nghbr t.1 t.2.1).dest = nn) &&
      decide ((s.nghbr t.1 t.2.1).gid - s.gid0 = mm) &&
      decide (flatIdxPack (s.sWin t.2.1) t.2.2.1 t.2.2.2.1 t.2.2.2.2 = idx)

/-- Result of `PackAndSendFluxCC`: buffer contents, destination status
flags, the log of `MPI_Isend` calls (one `(m, n)` pair each), and the
returned task status. -/
structure PackResult where
  rData : Nat → Int → Nat → Int → ℚ
  sData : Nat → Nat → Nat → Int → ℚ
  rFlxStat : Nat → Int → BoundaryCommStatus
  sends : List (Nat × Nat)
  status : TaskStatus

/-- Embedding of `BoundaryValuesCC::PackAndSendFluxCC`
(`flux_correction_cc.cpp` lines 28-192).  The kernel writes the restricted
flux of every flux-relevant coarser-neighbor pair either directly into the
destination's receive buffer (same rank) or into the local send buffer
(different rank); the closing loop marks the destination flux status
`received` for every valid same-rank pair and issues one `MPI_Isend` per
valid cross-rank pair; the function returns `complete`. -/
def packAndSendFluxCC (cfg : MeshCfg) (s : FCState) (F : FaceFld)
    (myRank : Nat) : PackResult where
  rData := fun nn mm v idx =>
    match packWriters s myRank nn mm idx with
    | [] => s.rData nn mm v idx
    | (m, n, c) :: _ =>
        if v < s.nvar then rflxVal cfg F m v n c.1 c.2.1 c.2.2
        else s.rData nn mm v idx
  sData := fun n m v idx =>
    if m < s.nmb ∧ n < s.nnghbr ∧ v < s.nvar ∧ packsPair s m n ∧
        (s.nghbr m n).rank ≠ myRank then
      match (windowCells (s.sWin n)).filterMap (fun c =>
          if flatIdxPack (s.sWin n) c.1 c.2.1 c.2.2 = idx then some c
          else none) with
      | [] => s.sData n m v idx
      | c :: _ => rflxVal cfg F m v n c.1 c.2.1 c.2.2
    else s.sData n m v idx
  rFlxStat := fun nn mm =>
    if (List.range s.nmb).any (fun m => (List.range s.nnghbr).any fun n =>
        decide ((s.nghbr m n).gid ≥ 0) &&
        decide ((s.nghbr m n).rank = myRank) &&
        decide ((s.nghbr m n).dest = nn) &&
        decide ((s.nghbr m n).gid - s.gid0 = mm)) then
      BoundaryCommStatus.received
    else s.rFlxStat nn mm
  sends :=
    (List.range s.nmb ×ˢ List.range s.nnghbr).filter fun p =>
      decide ((s.nghbr p.1 p.2).gid ≥ 0) &&
      decide ((s.nghbr p.1 p.2).rank ≠ myRank)
  status := TaskStatus.complete

/-- Step-1 outstanding check of `RecvAndUnpackFluxCC`
(`flux_correction_cc.cpp` lines 217-234) as a proposition: some valid pair
is still outstanding — a same-rank pair whose flux receive status is
`waiting`, or a cross-rank pair whose transfer (per the `MPI_Test` oracle
`done`) has not completed. -/
def unpackOutstanding (s : FCState) (myRank : Nat)
    (done : Nat → Nat → Bool) : Prop :=
  ∃ m, m < s.nmb ∧ ∃ n, n < s.nnghbr ∧ (s.nghbr m n).gid ≥ 0 ∧
    (((s.nghbr m n).rank = myRank ∧
        s.rFlxStat n m = BoundaryCommStatus.waiting) ∨
      ((s.nghbr m n).rank ≠ myRank ∧ done m n = false))

/-- The boolean flag `bflag` computed by the step-1 loop of
`RecvAndUnpackFluxCC`: set when some valid pair is a same-rank pair whose
status is `waiting`, or a cross-rank pair whose `MPI_Test` fails. -/
def unpackBflag (s : FCState) (myRank : Nat)
    (done : Nat → Nat → Bool) : Bool :=
  (List.range s.nmb).any fun m => (List.range s.nnghbr).any fun n =>
    decide ((s.nghbr m n).gid ≥ 0) &&
    (if (s.nghbr m n).rank = myRank
     then decide (s.rFlxStat n m = BoundaryCommStatus.waiting)
     else !done m n)

/-- The computed flag holds exactly when some valid pair is outstanding. -/
theorem unpackBflag_iff (s : FCState) (myRank : Nat)
    (done : Nat → Nat → Bool) :
    unpackBflag s myRank done = true ↔ unpackOutstanding s myRank done := by
  unfold unpackBflag unpackOutstanding
  simp only [List.any_eq_true, List.mem_range, Bool.and_eq_true,
    decide_eq_true_eq]
  constructor
  · rintro ⟨m, hm, n, hn, hg, hcond⟩
    refine ⟨m, hm, n, hn, hg, ?_⟩
    by_cases hr : (s.nghbr m n).rank = myRank
    · rw [if_pos hr] at hcond
      exact Or.inl ⟨hr, by simpa using hcond⟩
    · rw [if_neg hr] at hcond
      exact Or.inr ⟨hr, by simpa using hcond⟩
  · rintro ⟨m, hm, n, hn, hg, hcond⟩
    refine ⟨m, hm, n, hn, hg, ?_⟩
    rcases hcond with ⟨hr, hw⟩ | ⟨hr, hd⟩
    · rw [if_pos hr]
      simpa using hw
    · rw [if_neg hr]
      simpa using hd

/-- Statuses after step 1 of `RecvAndUnpackFluxCC`: every valid cross-rank
pair whose `MPI_Test` completed is marked `received`; all other entries
are unchanged. -/
def unpackStat1 (s : FCState) (myRank : Nat) (done : Nat → Nat → Bool) :
    Nat → Int → BoundaryCommStatus :=
  fun n mm =>
    if 0 ≤ mm ∧ mm < (s.nmb : Int) ∧ n < s.nnghbr ∧
        (s.nghbr mm.toNat n).gid ≥ 0 ∧
        (s.nghbr mm.toNat n).rank ≠ myRank ∧ done mm.toNat n = true then
      BoundaryCommStatus.received
    else s.rFlxStat n mm

/-- Slots that write destination face `(i, j, k)` of block `m` in the
unpack kernel for face-range `[lo, hi)`: valid slots in the range whose
neighbor is flux-relevant and finer and whose receive window covers the
cell (`flux_correction_cc.cpp` lines 252-296). -/
def unpackWriters (s : FCState) (m : Nat) (lo hi : Nat) (i j k : Int) :
    List Nat :=
  (List.range s.nnghbr).filter fun n =>
    decide (lo ≤ n) && decide (n < hi) &&
    (s.nghbr m n).ccflx && decide (s.mblev m < (s.nghbr m n).lev) &&
    decide ((s.rWin n).mem i j k)

/-- Result of `RecvAndUnpackFluxCC`: returned status, destination flux
arrays, and the flux receive status flags after the step-1 polling. -/
structure UnpackResult where
  status : TaskStatus
  flx : FaceFld
  rFlxStat : Nat → Int → BoundaryCommStatus

/-- Embedding of `BoundaryValuesCC::RecvAndUnpackFluxCC`
(`flux_correction_cc.cpp` lines 198-301).  Step 1 polls completion (the
`MPI_Test` outcome is the oracle `done`) and marks completed cross-rank
pairs `received`; if any valid pair is still outstanding the function
returns `incomplete` with the destination arrays untouched.  Step 2
overwrites, for every flux-relevant finer-level neighbor slot, the
destination face flux over the receive window with the buffer contents at
the flattened offset (x1 faces for slots below 8, x2 faces below 16, x3
faces otherwise). -/
def recvAndUnpackFluxCC (s : FCState) (F : FaceFld) (myRank : Nat)
    (done : Nat → Nat → Bool) : UnpackResult :=
  if unpackBflag s myRank done then
    { status := TaskStatus.incomplete, flx := F,
      rFlxStat := unpackStat1 s myRank done }
  else
    { status := TaskStatus.complete,
      flx :=
        { x1f := fun m v k j i =>
            if m < s.nmb ∧ v < s.nvar then
              match unpackWriters s m 0 8 i j k with
              | [] => F.x1f m v k j i
              | n :: _ => s.rData n (m : Int) v (flatIdxUnpack (s.rWin n) i j k)
            else F.x1f m v k j i
          x2f := fun m v k j i =>
            if m < s.nmb ∧ v < s.nvar then
              match unpackWriters s m 8 16 i j k with
              | [] => F.x2f m v k j i
              | n :: _ => s.rData n (m : Int) v (flatIdxUnpack (s.rWin n) i j k)
            else F.x2f m v k j i
          x3f := fun m v k j i =>
            if m < s.nmb ∧ v < s.nvar then
              match unpackWriters s m 16 s.nnghbr i j k with
              | [] => F.x3f m v k j i
              | n :: _ => s.rData n (m : Int) v (flatIdxUnpack (s.rWin n) i j k)
            else F.x3f m v k j i },
      rFlxStat := unpackStat1 s myRank done }

/-- Membership in `packWriters`: a triple is listed exactly when it is a
kernel instance with a flux-relevant coarser same-rank neighbor addressed
at `(nn, mm)` whose window cell flattens to `idx`. -/
theorem mem_packWriters (s : FCState) (myRank nn : Nat) (mm idx : Int)
    (m n : Nat) (c : Int × Int × Int) :
    (m, n, c) ∈ packWriters s myRank nn mm idx ↔
      m < s.nmb ∧ n < s.nnghbr ∧ packsPair s m n ∧
      (s.nghbr m n).rank = myRank ∧ (s.nghbr m n).dest = nn ∧
      (s.nghbr m n).gid - s.gid0 = mm ∧ (s.sWin n).mem c.1 c.2.1 c.2.2 ∧
      flatIdxPack (s.sWin n) c.1 c.2.1 c.2.2 = idx := by
  unfold packWriters
  rw [List.mem_filter]
  constructor
  · rintro ⟨hmem, hcond⟩
    rw [List.mem_flatMap] at hmem
    obtain ⟨p, hp, hmem⟩ := hmem
    obtain ⟨pm, pn⟩ := p
    rw [List.mem_product, List.mem_range, List.mem_range] at hp
    rw [List.mem_map] at hmem
    obtain ⟨c', hc', heq⟩ := hmem
    injection heq with e1 erest
    injection erest with e2 e3
    subst e1
    subst e2
    subst e3
    simp only [Bool.and_eq_true, decide_eq_true_eq] at hcond
    obtain ⟨⟨⟨⟨h3, h4⟩, h5⟩, h6⟩, h8⟩ := hcond
    exact ⟨hp.1, hp.2, h3, h4, h5, h6, (mem_windowCells _ _ _ _).mp hc', h8⟩
  · rintro ⟨h1, h2, h3, h4, h5, h6, h7, h8⟩
    refine ⟨?_, ?_⟩
    · rw [List.mem_flatMap]
      refine ⟨(m, n), ?_, ?_⟩
      · rw [List.mem_product, List.mem_range, List.mem_range]
        exact ⟨h1, h2⟩
      · rw [List.mem_map]
        exact ⟨c, (mem_windowCells _ _ _ _).mpr h7, rfl⟩
    · simp only [Bool.and_eq_true, decide_eq_true_eq]
      exact ⟨⟨⟨⟨h3, h4⟩, h5⟩, h6⟩, h8⟩

/-- The window cell `(i, j, k)` is found by the offset-matching scan of the
window used in the buffer-content definitions. -/
theorem mem_filterMap_flat (w : BufWindow) (i j k : Int) (h : w.mem i j k) :
    (i, j, k) ∈ (windowCells w).filterMap (fun c =>
      if flatIdxPack w c.1 c.2.1 c.2.2 = flatIdxPack w i j k then some c
      else none) := by
  rw [List.mem_filterMap]
  exact ⟨(i, j, k), (mem_windowCells _ _ _ _).mpr h, by rw [if_pos rfl]⟩

/-- Any cell found by the offset-matching scan at offset
`flatIdxPack w i j k` is `(i, j, k)` itself, by injectivity of the
flattening on the window. -/
theorem eq_of_mem_filterMap_flat (w : BufWindow) (i j k : Int)
    (h : w.mem i j k) :
    ∀ c ∈ (windowCells w).filterMap (fun c =>
      if flatIdxPack w c.1 c.2.1 c.2.2 = flatIdxPack w i j k then some c
      else none), c = (i, j, k) := by
  intro c hc
  rw [List.mem_filterMap] at hc
  obtain ⟨c', hc', heq⟩ := hc
  by_cases hf : flatIdxPack w c'.1 c'.2.1 c'.2.2 = flatIdxPack w i j k
  · rw [if_pos hf] at heq
    have e : c' = c := by injection heq
    rw [← e]
    obtain ⟨a, b, d⟩ := c'
    have hm : w.mem a b d := (mem_windowCells _ _ _ _).mp hc'
    obtain ⟨e1, e2, e3⟩ := flatIdx_injOn w a b d i j k hm h hf
    simp only [Prod.mk.injEq]
    exact ⟨e1, e2, e3⟩
  · rw [if_neg hf] at heq
    cases heq

/-- The offset-matching scan at a window cell's offset finds exactly that
cell: the scan result is a list headed by `(i, j, k)`. -/
theorem filterMap_flat_head (w : BufWindow) (i j k : Int) (h : w.mem i j k) :
    ∃ t, (windowCells w).filterMap (fun c =>
      if flatIdxPack w c.1 c.2.1 c.2.2 = flatIdxPack w i j k then some c
      else none) = (i, j, k) :: t := by
  cases hL : (windowCells w).filterMap (fun c =>
      if flatIdxPack w c.1 c.2.1 c.2.2 = flatIdxPack w i j k then some c
      else none) with
  | nil =>
      exact absurd (hL ▸ mem_filterMap_flat w i j k h) (List.not_mem_nil _)
  | cons a t =>
      have ha : a = (i, j, k) :=
        eq_of_mem_filterMap_flat w i j k h a (hL ▸ List.mem_cons_self a t)
      exact ⟨t, by rw [ha]⟩

/-- Buffer contents after the pack kernel writes one (block, slot,
variable) window: every window cell's value `g c` is stored at its
pack-site flattened offset, writes applied in the kernel's loop order. -/
def packBufFold (w : BufWindow) (g : Int × Int × Int → ℚ) (b0 : Int → ℚ) :
    Int → ℚ :=
  (windowCells w).foldl
    (fun b c => fun idx =>
      if idx = flatIdxPack w c.1 c.2.1 c.2.2 then g c else b idx) b0

/-- A fold of offset-writes leaves an offset untouched when no listed cell
flattens to it. -/
theorem foldl_write_of_not_mem (w : BufWindow) (g : Int × Int × Int → ℚ)
    (l : List (Int × Int × Int)) (b0 : Int → ℚ) (idx : Int)
    (h : ∀ c ∈ l, flatIdxPack w c.1 c.2.1 c.2.2 ≠ idx) :
    l.foldl (fun b c => fun p =>
      if p = flatIdxPack w c.1 c.2.1 c.2.2 then g c else b p) b0 idx =
      b0 idx := by
  induction l generalizing b0 with
  | nil => rfl
  | cons a t ih =>
      rw [List.foldl_cons]
      rw [ih _ (fun c hc => h c (List.mem_cons_of_mem a hc))]
      rw [if_neg (fun he => h a (List.mem_cons_self a t) he.symm)]

/-- A fold of offset-writes stores `g c` at the offset of a listed cell
`c`, provided no other listed cell shares that offset. -/
theorem foldl_write_of_mem (w : BufWindow) (g : Int × Int × Int → ℚ)
    (l : List (Int × Int × Int)) (b0 : Int → ℚ) (c : Int × Int × Int)
    (hc : c ∈ l)
    (huniq : ∀ c' ∈ l,
      flatIdxPack w c'.1 c'.2.1 c'.2.2 = flatIdxPack w c.1 c.2.1 c.2.2 →
        c' = c) :
    l.foldl (fun b c => fun p =>
      if p = flatIdxPack w c.1 c.2.1 c.2.2 then g c else b p) b0
      (flatIdxPack w c.1 c.2.1 c.2.2) = g c := by
  induction l generalizing b0 with
  | nil => cases hc
  | cons a t ih =>
      rw [List.foldl_cons]
      by_cases hat : c ∈ t
      · exact ih _ hat (fun c' hc' => huniq c' (List.mem_cons_of_mem a hc'))
      · have hac : a = c := by
          cases List.mem_cons.mp hc with
          | inl h => exact h.symm
          | inr h => exact absurd h hat
        subst hac
        rw [foldl_write_of_not_mem w g t _ _ (fun c' hc' he =>
          hat ((huniq c' (List.mem_cons_of_mem a hc') he) ▸ hc'))]
        rw [if_pos rfl]

/-- C4: the flattened offset computed by the pack kernel equals the offset
computed by the unpack kernel at every cell of every inclusive window, and
a same-rank one-cycle pack-then-unpack through the buffer reproduces at
every destination window cell exactly the value the sender packed for it:
reading the packed buffer at the unpack-site offset returns the packed
value of that cell. -/
theorem c4_flatten_identity_roundtrip (w : BufWindow)
    (g : Int × Int × Int → ℚ) (b0 : Int → ℚ) (i j k : Int)
    (h : w.mem i j k) :
    flatIdxPack w i j k = flatIdxUnpack w i j k ∧
    packBufFold w g b0 (flatIdxUnpack w i j k) = g (i, j, k) := by
  refine ⟨rfl, ?_⟩
  have hun : flatIdxUnpack w i j k = flatIdxPack w (i, j, k).1 (i, j, k).2.1
      (i, j, k).2.2 := rfl
  rw [hun]
  exact foldl_write_of_mem w g (windowCells w) b0 (i, j, k)
    ((mem_windowCells _ _ _ _).mpr h)
    (fun c' hc' he => by
      have hm' := (mem_windowCells _ _ _ _).mp hc'
      obtain ⟨a, b, d⟩ := c'
      obtain ⟨e1, e2, e3⟩ := flatIdx_injOn w a b d i j k hm' h he
      simp only [Prod.mk.injEq]
      exact ⟨e1, e2, e3⟩)

/-- Concrete window used by the C4 witness. -/
def c4Win : BufWindow := ⟨1, 2, 3, 4, 5, 5⟩

/-- Concrete cell pattern used by the C4 witness. -/
def c4G : Int × Int × Int → ℚ :=
  fun c => ((c.1 + 10 * c.2.1 + 100 * c.2.2 : Int) : ℚ)

/-- Witness for C4 at window `1..2 × 3..4 × 5..5`, cell `(2, 4, 5)`. -/
theorem c4_witness :
    flatIdxPack c4Win 2 4 5 = flatIdxUnpack c4Win 2 4 5 ∧
    packBufFold c4Win c4G (fun _ => 0) (flatIdxUnpack c4Win 2 4 5) =
      c4G (2, 4, 5) :=
  c4_flatten_identity_roundtrip c4Win c4G (fun _ => 0) 2 4 5
    (by refine ⟨by decide, by decide, by decide, by decide, by decide,
      by decide⟩)

/-- The fine-resolution face-flux values lying under the one coarse face
`(i, j, k)` handled by slot `n` (the covering set the spec's averaging
stencil prescribes): the sub-faces of the coarse face at fine indices
`fi = 2i - cis` (resp. `fj`, `fk`), two per non-collapsed transverse
direction — one value in 1-D, two in 2-D, four in 3-D. -/
def coveringVals (cfg : MeshCfg) (F : FaceFld) (m v n : Nat)
    (i j k : Int) : List ℚ :=
  let fi := 2 * i - cfg.cis
  let fj := 2 * j - cfg.cjs
  let fk := 2 * k - cfg.cks
  if n < 8 then
    if cfg.one_d then [F.x1f m v 0 0 fi]
    else if cfg.two_d then [F.x1f m v 0 fj fi, F.x1f m v 0 (fj + 1) fi]
    else [F.x1f m v fk fj fi, F.x1f m v fk (fj + 1) fi,
      F.x1f m v (fk + 1) fj fi, F.x1f m v (fk + 1) (fj + 1) fi]
  else if n < 16 then
    if cfg.two_d then [F.x2f m v 0 fj fi, F.x2f m v 0 fj (fi + 1)]
    else [F.x2f m v fk fj fi, F.x2f m v fk fj (fi + 1),
      F.x2f m v (fk + 1) fj fi, F.x2f m v (fk + 1) fj (fi + 1)]
  else [F.x3f m v fk fj fi, F.x3f m v fk fj (fi + 1),
    F.x3f m v fk (fj + 1) fi, F.x3f m v fk (fj + 1) (fi + 1)]

/-- C2: for every kernel instance packed by `PackAndSendFluxCC` on a face
slot consistent with the mesh dimensionality, the packed value `rflx`
equals the equal-weight arithmetic mean of the fine face fluxes covering
the coarse face — exactly 1 value in 1-D, 2 in 2-D, 4 in 3-D. -/
theorem c2_pack_restriction_is_arithmetic_mean (cfg : MeshCfg) (F : FaceFld)
    (m v n : Nat) (i j k : Int)
    (hface : n < 8 ∨ (8 ≤ n ∧ n < 16) ∨ (24 ≤ n ∧ n < 32))
    (h1 : cfg.one_d = true → n < 8) (h2 : cfg.two_d = true → n < 16) :
    rflxVal cfg F m v n i j k =
      (coveringVals cfg F m v n i j k).sum /
        (coveringVals cfg F m v n i j k).length ∧
    (coveringVals cfg F m v n i j k).length =
      (if cfg.one_d then 1 else if cfg.two_d then 2 else 4) := by
  unfold rflxVal coveringVals
  refine ⟨?_, ?_⟩
  · split_ifs <;>
      (simp only [List.sum_cons, List.sum_nil, List.length_cons,
        List.length_nil]; push_cast; ring)
  · split_ifs <;>
      first
        | rfl
        | (exact absurd (h1 (by assumption)) (by assumption))
        | (exact absurd (h2 (by assumption)) (by assumption))

/-- Concrete 3-D flux field for the C2 witness: the four fine `x1f` values
under the coarse face at `(i, j, k) = (2, 3, 4)` (with
`cis = cjs = cks = 0`, hence fine indices `4..5 × 6..7`) are 1, 2, 3, 4. -/
def c2Flux : FaceFld where
  x1f := fun _ _ fk fj fi =>
    if fi = 4 ∧ fj = 6 ∧ fk = 8 then 1
    else if fi = 4 ∧ fj = 7 ∧ fk = 8 then 2
    else if fi = 4 ∧ fj = 6 ∧ fk = 9 then 3
    else if fi = 4 ∧ fj = 7 ∧ fk = 9 then 4
    else 0
  x2f := fun _ _ _ _ _ => 0
  x3f := fun _ _ _ _ _ => 0

/-- Three-dimensional mesh configuration for the C2 witness. -/
def c2Cfg : MeshCfg := ⟨false, false, 0, 0, 0⟩

/-- Witness for C2: fine values 1, 2, 3, 4 under one 3-D coarse x1 face
average to 5/2 = 2.5. -/
theorem c2_witness :
    rflxVal c2Cfg c2Flux 0 0 0 2 3 4 =
      (coveringVals c2Cfg c2Flux 0 0 0 2 3 4).sum /
        (coveringVals c2Cfg c2Flux 0 0 0 2 3 4).length ∧
    (coveringVals c2Cfg c2Flux 0 0 0 2 3 4).length = 4 ∧
    rflxVal c2Cfg c2Flux 0 0 0 2 3 4 = 5 / 2 :=
  ⟨(c2_pack_restriction_is_arithmetic_mean c2Cfg c2Flux 0 0 0 2 3 4
      (Or.inl (by decide)) (fun h => by cases h) (fun h => by cases h)).1,
   by decide,
   by norm_num [rflxVal, c2Flux, c2Cfg]⟩

/-- C5: for every valid same-rank pair, `PackAndSendFluxCC` marks the
destination's flux receive status (destination slot `nghbr.dest`, block
index `gid` minus the pack's first gid) `received` before returning and
issues no network send; and for flux-relevant coarser-neighbor pairs the
restricted flux is written directly into the destination block's receive
buffer at that address (uniqueness of the sender addressing the cell is
the mesh-topology invariant assumed as a hypothesis). -/
theorem c5_same_rank_direct_copy (cfg : MeshCfg) (s : FCState) (F : FaceFld)
    (myRank : Nat) :
    (∀ m n, m < s.nmb → n < s.nnghbr → (s.nghbr m n).gid ≥ 0 →
      (s.nghbr m n).rank = myRank →
      (packAndSendFluxCC cfg s F myRank).rFlxStat (s.nghbr m n).dest
        ((s.nghbr m n).gid - s.gid0) = BoundaryCommStatus.received) ∧
    (∀ m n, (s.nghbr m n).rank = myRank →
      (m, n) ∉ (packAndSendFluxCC cfg s F myRank).sends) ∧
    (∀ m n v i j k, m < s.nmb → n < s.nnghbr → v < s.nvar →
      packsPair s m n → (s.nghbr m n).rank = myRank →
      (s.sWin n).mem i j k →
      (∀ m' n' c', (m', n', c') ∈ packWriters s myRank (s.nghbr m n).dest
          ((s.nghbr m n).gid - s.gid0) (flatIdxPack (s.sWin n) i j k) →
        m' = m ∧ n' = n) →
      (packAndSendFluxCC cfg s F myRank).rData (s.nghbr m n).dest
        ((s.nghbr m n).gid - s.gid0) v (flatIdxPack (s.sWin n) i j k) =
        rflxVal cfg F m v n i j k) ∧
    (packAndSendFluxCC cfg s F myRank).status = TaskStatus.complete := by
  refine ⟨?_, ?_, ?_, rfl⟩
  · intro m n hm hn hg hr
    simp only [packAndSendFluxCC]
    rw [if_pos ?hcond]
    case hcond =>
      rw [List.any_eq_true]
      refine ⟨m, List.mem_range.mpr hm, ?_⟩
      rw [List.any_eq_true]
      refine ⟨n, List.mem_range.mpr hn, ?_⟩
      simp [hg, hr]
  · intro m n hr hmem
    simp only [packAndSendFluxCC] at hmem
    rw [List.mem_filter] at hmem
    simp only [Bool.and_eq_true, decide_eq_true_eq] at hmem
    exact hmem.2.2 hr
  · intro m n v i j k hm hn hv hpp hr hmemw huniq
    have htri : (m, n, (i, j, k)) ∈ packWriters s myRank (s.nghbr m n).dest
        ((s.nghbr m n).gid - s.gid0) (flatIdxPack (s.sWin n) i j k) :=
      (mem_packWriters s myRank _ _ _ m n (i, j, k)).mpr
        ⟨hm, hn, hpp, hr, rfl, rfl, hmemw, rfl⟩
    have hall : ∀ t ∈ packWriters s myRank (s.nghbr m n).dest
        ((s.nghbr m n).gid - s.gid0) (flatIdxPack (s.sWin n) i j k),
        t = (m, n, (i, j, k)) := by
      rintro ⟨m', n', c'⟩ ht
      obtain ⟨e1, e2⟩ := huniq m' n' c' ht
      have h := (mem_packWriters s myRank _ _ _ m' n' c').mp ht
      rw [e1, e2] at h
      obtain ⟨a, b, d⟩ := c'
      obtain ⟨f1, f2, f3⟩ := flatIdx_injOn (s.sWin n) a b d i j k
        h.2.2.2.2.2.2.1 hmemw h.2.2.2.2.2.2.2
      simp only [Prod.mk.injEq]
      exact ⟨e1, e2, f1, f2, f3⟩
    cases hL : packWriters s myRank (s.nghbr m n).dest
        ((s.nghbr m n).gid - s.gid0) (flatIdxPack (s.sWin n) i j k) with
    | nil => exact absurd (hL ▸ htri) (List.not_mem_nil _)
    | cons a t =>
        have ha : a = (m, n, (i, j, k)) :=
          hall a (hL ▸ List.mem_cons_self a t)
        subst ha
        simp only [packAndSendFluxCC]
        rw [hL]
        simp [hv]

/-- One-dimensional mesh configuration for the C5 witness. -/
def c5Cfg : MeshCfg := ⟨true, false, 0, 0, 0⟩

/-- Flux field for the C5 witness: `x1f = 7` on the fine face `i = 4`. -/
def c5Flux : FaceFld where
  x1f := fun _ _ _ _ i => if i = 4 then 7 else 0
  x2f := fun _ _ _ _ _ => 0
  x3f := fun _ _ _ _ _ => 0

/-- Concrete two-block state for the C5 witness: block 0 is fine and its
slot 0 neighbor is the coarser same-rank block 1 (destination slot 4);
every other pair is a physical boundary. -/
def c5State : FCState where
  nmb := 2
  nnghbr := 8
  nvar := 1
  nghbr := fun m n =>
    if m = 0 ∧ n = 0 then ⟨1, 0, 0, 4, true⟩ else ⟨-1, 0, 0, 0, false⟩
  mblev := fun m => if m = 0 then 1 else 0
  gid0 := 0
  sWin := fun _ => ⟨2, 2, 0, 0, 0, 0⟩
  rWin := fun _ => ⟨2, 2, 0, 0, 0, 0⟩
  sData := fun _ _ _ _ => 0
  rData := fun _ _ _ _ => 0
  rFlxStat := fun _ _ => BoundaryCommStatus.undef

/-- Witness for C5 on `c5State`: the destination's flag becomes
`received`, the pair is not sent over the network, and the receive buffer
holds the restricted flux. -/
theorem c5_witness :
    (packAndSendFluxCC c5Cfg c5State c5Flux 0).rFlxStat
      (c5State.nghbr 0 0).dest ((c5State.nghbr 0 0).gid - c5State.gid0) =
      BoundaryCommStatus.received ∧
    (0, 0) ∉ (packAndSendFluxCC c5Cfg c5State c5Flux 0).sends ∧
    (packAndSendFluxCC c5Cfg c5State c5Flux 0).rData
      (c5State.nghbr 0 0).dest ((c5State.nghbr 0 0).gid - c5State.gid0) 0
      (flatIdxPack (c5State.sWin 0) 2 0 0) = rflxVal c5Cfg c5Flux 0 0 0 2 0 0 := by
  have h := c5_same_rank_direct_copy c5Cfg c5State c5Flux 0
  refine ⟨h.1 0 0 (by decide) (by decide) (by decide) (by decide),
    h.2.1 0 0 (by decide),
    h.2.2.1 0 0 0 2 0 0 (by decide) (by decide) (by decide) (by decide)
      (by decide) (by decide) ?_⟩
  intro m' n' c' ht
  rw [show packWriters c5State 0 (c5State.nghbr 0 0).dest
      ((c5State.nghbr 0 0).gid - c5State.gid0)
      (flatIdxPack (c5State.sWin 0) 2 0 0) = [(0, 0, (2, 0, 0))] from
    by decide] at ht
  rw [List.mem_singleton] at ht
  injection ht with e1 e2
  injection e2 with e2 e3
  exact ⟨e1, e2⟩

/-- C3 (amended): `RecvAndUnpackFluxCC` returns `incomplete` exactly when
some valid pair is outstanding — a local-rank pair whose flux receive
status is `waiting`, or a cross-rank pair whose transfer has not completed
— and an `incomplete` return leaves every destination flux array
untouched; in particular a valid same-rank pair with status `waiting`
always forces the `incomplete` return. -/
theorem c3_amended_incomplete_no_mutation (s : FCState) (F : FaceFld)
    (myRank : Nat) (done : Nat → Nat → Bool) :
    (unpackOutstanding s myRank done ↔
      (recvAndUnpackFluxCC s F myRank done).status = TaskStatus.incomplete) ∧
    ((recvAndUnpackFluxCC s F myRank done).status = TaskStatus.incomplete →
      (recvAndUnpackFluxCC s F myRank done).flx = F) ∧
    (∀ m n, m < s.nmb → n < s.nnghbr → (s.nghbr m n).gid ≥ 0 →
      (s.nghbr m n).rank = myRank →
      s.rFlxStat n m = BoundaryCommStatus.waiting →
      (recvAndUnpackFluxCC s F myRank done).status = TaskStatus.incomplete) := by
  by_cases hb : unpackBflag s myRank done = true
  · refine ⟨?_, ?_, ?_⟩
    · simp only [recvAndUnpackFluxCC, hb, if_true, iff_true]
      exact (unpackBflag_iff s myRank done).mp hb
    · intro _
      simp [recvAndUnpackFluxCC, hb]
    · intro m n _ _ _ _ _
      simp [recvAndUnpackFluxCC, hb]
  · have hb' : unpackBflag s myRank done = false := by
      cases h : unpackBflag s myRank done
      · rfl
      · exact absurd h hb
    have hno : ¬ unpackOutstanding s myRank done := fun ho =>
      hb ((unpackBflag_iff s myRank done).mpr ho)
    refine ⟨?_, ?_, ?_⟩
    · simp only [recvAndUnpackFluxCC, hb', if_false, Bool.false_eq_true]
      exact ⟨fun ho => absurd ho hno, fun h => by cases h⟩
    · intro h
      exact absurd h (by simp [recvAndUnpackFluxCC, hb'])
    · intro m n hm hn hg hr hw
      exact absurd ⟨m, hm, n, hn, hg, Or.inl ⟨hr, hw⟩⟩ hno

/-- The all-zero face-flux field used by concrete unpack configurations. -/
def zeroFaceFld : FaceFld where
  x1f := fun _ _ _ _ _ => 0
  x2f := fun _ _ _ _ _ => 0
  x3f := fun _ _ _ _ _ => 0

/-- One-block one-slot state whose only pair is a valid cross-rank
neighbor with flux receive status `waiting`. -/
def c3XState : FCState where
  nmb := 1
  nnghbr := 1
  nvar := 1
  nghbr := fun _ _ => ⟨0, 0, 1, 0, false⟩
  mblev := fun _ => 0
  gid0 := 0
  sWin := fun _ => ⟨0, 0, 0, 0, 0, 0⟩
  rWin := fun _ => ⟨0, 0, 0, 0, 0, 0⟩
  sData := fun _ _ _ _ => 0
  rData := fun _ _ _ _ => 0
  rFlxStat := fun _ _ => BoundaryCommStatus.waiting

/-- C3 counterexample: on `c3XState` the valid pair `(0, 0)` still has
flux receive status `waiting` when `RecvAndUnpackFluxCC` is called, yet
when its cross-rank transfer has completed (`MPI_Test` succeeds) the
function marks it `received` and returns `complete`, not `incomplete`:
the entry-time flag alone does not force the incomplete return. -/
theorem c3_counterexample :
    c3XState.rFlxStat 0 0 = BoundaryCommStatus.waiting ∧
    (c3XState.nghbr 0 0).gid ≥ 0 ∧
    (recvAndUnpackFluxCC c3XState zeroFaceFld 0 (fun _ _ => true)).status ≠
      TaskStatus.incomplete := by
  refine ⟨rfl, by decide, by decide⟩

/-- Same state as `c3XState` but with the neighbor owned by the local
rank, used to witness the amended C3. -/
def c3WState : FCState where
  nmb := 1
  nnghbr := 1
  nvar := 1
  nghbr := fun _ _ => ⟨0, 0, 0, 0, false⟩
  mblev := fun _ => 0
  gid0 := 0
  sWin := fun _ => ⟨0, 0, 0, 0, 0, 0⟩
  rWin := fun _ => ⟨0, 0, 0, 0, 0, 0⟩
  sData := fun _ _ _ _ => 0
  rData := fun _ _ _ _ => 0
  rFlxStat := fun _ _ => BoundaryCommStatus.waiting

/-- Witness for the amended C3: a same-rank `waiting` pair forces the
`incomplete` return on `c3WState`. -/
theorem c3_witness :
    (recvAndUnpackFluxCC c3WState zeroFaceFld 0 (fun _ _ => true)).status =
      TaskStatus.incomplete :=
  (c3_amended_incomplete_no_mutation c3WState zeroFaceFld 0
      (fun _ _ => true)).2.2 0 0 (by decide) (by decide) (by decide)
    (by decide) (by decide)

/-- C1 (amended): when no receive is outstanding, `RecvAndUnpackFluxCC`
returns `complete` and its step-2 unpack acts only on slots whose
flux-relevant neighbor is at a finer level: there it overwrites the
receiving (coarser) block's face flux at every receive-window face with
the buffer value at the flattened offset (x1 faces for slots `< 8`, x2
faces for slots `8..15`, x3 faces for the rest); a cell covered by no such
slot — in particular every cell of a slot whose neighbor is at the same
(or coarser) level, since such a slot is never a writer — is left
unchanged. -/
theorem c1_amended_unpack_overwrites_coarse (s : FCState) (F : FaceFld)
    (myRank : Nat) (done : Nat → Nat → Bool)
    (hb : unpackBflag s myRank done = false) :
    (recvAndUnpackFluxCC s F myRank done).status = TaskStatus.complete ∧
    (∀ m v n i j k, m < s.nmb → v < s.nvar → n < s.nnghbr → n < 8 →
      (s.nghbr m n).ccflx = true → s.mblev m < (s.nghbr m n).lev →
      (s.rWin n).mem i j k →
      (∀ n' ∈ unpackWriters s m 0 8 i j k, n' = n) →
      (recvAndUnpackFluxCC s F myRank done).flx.x1f m v k j i =
        s.rData n (m : Int) v (flatIdxUnpack (s.rWin n) i j k)) ∧
    (∀ m v n i j k, m < s.nmb → v < s.nvar → n < s.nnghbr → 8 ≤ n →
      n < 16 →
      (s.nghbr m n).ccflx = true → s.mblev m < (s.nghbr m n).lev →
      (s.rWin n).mem i j k →
      (∀ n' ∈ unpackWriters s m 8 16 i j k, n' = n) →
      (recvAndUnpackFluxCC s F myRank done).flx.x2f m v k j i =
        s.rData n (m : Int) v (flatIdxUnpack (s.rWin n) i j k)) ∧
    (∀ m v n i j k, m < s.nmb → v < s.nvar → n < s.nnghbr → 16 ≤ n →
      (s.nghbr m n).ccflx = true → s.mblev m < (s.nghbr m n).lev →
      (s.rWin n).mem i j k →
      (∀ n' ∈ unpackWriters s m 16 s.nnghbr i j k, n' = n) →
      (recvAndUnpackFluxCC s F myRank done).flx.x3f m v k j i =
        s.rData n (m : Int) v (flatIdxUnpack (s.rWin n) i j k)) ∧
    (∀ m v k j i, unpackWriters s m 0 8 i j k = [] →
      (recvAndUnpackFluxCC s F myRank done).flx.x1f m v k j i =
        F.x1f m v k j i) ∧
    (∀ m v k j i, unpackWriters s m 8 16 i j k = [] →
      (recvAndUnpackFluxCC s F myRank done).flx.x2f m v k j i =
        F.x2f m v k j i) ∧
    (∀ m v k j i, unpackWriters s m 16 s.nnghbr i j k = [] →
      (recvAndUnpackFluxCC s F myRank done).flx.x3f m v k j i =
        F.x3f m v k j i) ∧
    (∀ m n lo hi i j k, (s.nghbr m n).lev = s.mblev m →
      n ∉ unpackWriters s m lo hi i j k) := by
  have hcomplete : (recvAndUnpackFluxCC s F myRank done).status =
      TaskStatus.complete := by
    simp [recvAndUnpackFluxCC, hb]
  refine ⟨hcomplete, ?_, ?_, ?_, ?_, ?_, ?_, ?_⟩
  · intro m v n i j k hm hv hn hn8 hcc hlev hwmem huniq
    have hmemw : n ∈ unpackWriters s m 0 8 i j k := by
      unfold unpackWriters
      rw [List.mem_filter]
      exact ⟨List.mem_range.mpr hn, by simp [hn8, hcc, hlev, hwmem]⟩
    cases hL : unpackWriters s m 0 8 i j k with
    | nil => exact absurd (hL ▸ hmemw) (List.not_mem_nil _)
    | cons a t =>
        have ha : a = n := huniq a (hL ▸ List.mem_cons_self a t)
        simp only [recvAndUnpackFluxCC, hb, Bool.false_eq_true, if_false]
        rw [if_pos ⟨hm, hv⟩, hL, ha]
  · intro m v n i j k hm hv hn hn8 hn16 hcc hlev hwmem huniq
    have hmemw : n ∈ unpackWriters s m 8 16 i j k := by
      unfold unpackWriters
      rw [List.mem_filter]
      exact ⟨List.mem_range.mpr hn, by simp [hn8, hn16, hcc, hlev, hwmem]⟩
    cases hL : unpackWriters s m 8 16 i j k with
    | nil => exact absurd (hL ▸ hmemw) (List.not_mem_nil _)
    | cons a t =>
        have ha : a = n := huniq a (hL ▸ List.mem_cons_self a t)
        simp only [recvAndUnpackFluxCC, hb, Bool.false_eq_true, if_false]
        rw [if_pos ⟨hm, hv⟩, hL, ha]
  · intro m v n i j k hm hv hn hn16 hcc hlev hwmem huniq
    have hmemw : n ∈ unpackWriters s m 16 s.nnghbr i j k := by
      unfold unpackWriters
      rw [List.mem_filter]
      exact ⟨List.mem_range.mpr hn, by simp [hn, hn16, hcc, hlev, hwmem]⟩
    cases hL : unpackWriters s m 16 s.nnghbr i j k with
    | nil => exact absurd (hL ▸ hmemw) (List.not_mem_nil _)
    | cons a t =>
        have ha : a = n := huniq a (hL ▸ List.mem_cons_self a t)
        simp only [recvAndUnpackFluxCC, hb, Bool.false_eq_true, if_false]
        rw [if_pos ⟨hm, hv⟩, hL, ha]
  · intro m v k j i hL
    simp only [recvAndUnpackFluxCC, hb, Bool.false_eq_true, if_false]
    rw [hL]
    split_ifs <;> rfl
  · intro m v k j i hL
    simp only [recvAndUnpackFluxCC, hb, Bool.false_eq_true, if_false]
    rw [hL]
    split_ifs <;> rfl
  · intro m v k j i hL
    simp only [recvAndUnpackFluxCC, hb, Bool.false_eq_true, if_false]
    rw [hL]
    split_ifs <;> rfl
  · intro m n lo hi i j k hlev hmem
    unfold unpackWriters at hmem
    rw [List.mem_filter] at hmem
    simp only [Bool.and_eq_true, decide_eq_true_eq] at hmem
    exact absurd (hlev ▸ hmem.2.1.2) (lt_irrefl _)

/-- One-block one-slot state for the C1 counterexample: the block is fine
(level 1) and its flux-relevant slot-0 neighbor is at the coarser level 0
(a different level); all receives are already `received`, and the receive
buffer holds the value 7 everywhere. -/
def c1XState : FCState where
  nmb := 1
  nnghbr := 1
  nvar := 1
  nghbr := fun _ _ => ⟨0, 0, 0, 0, true⟩
  mblev := fun _ => 1
  gid0 := 0
  sWin := fun _ => ⟨2, 2, 0, 0, 0, 0⟩
  rWin := fun _ => ⟨2, 2, 0, 0, 0, 0⟩
  sData := fun _ _ _ _ => 0
  rData := fun _ _ _ _ => 7
  rFlxStat := fun _ _ => BoundaryCommStatus.received

/-- C1 counterexample: on `c1XState` slot 0 is flux-relevant and its
neighbor is at a different (coarser) level, the receive-window face
`(2, 0, 0)` is covered and the buffer holds 7 there, yet the step-2 unpack
(reached, since the call returns `complete`) leaves the destination face
flux at its old value 0 instead of overwriting it: the unpack acts only
when the neighbor is at a finer level — it is the coarser receiving block
whose face flux is overwritten, not the finer block's. -/
theorem c1_counterexample :
    (c1XState.nghbr 0 0).ccflx = true ∧
    (c1XState.nghbr 0 0).lev ≠ c1XState.mblev 0 ∧
    (c1XState.rWin 0).mem 2 0 0 ∧
    (recvAndUnpackFluxCC c1XState zeroFaceFld 0 (fun _ _ => true)).status =
      TaskStatus.complete ∧
    c1XState.rData 0 0 0 (flatIdxUnpack (c1XState.rWin 0) 2 0 0) = 7 ∧
    (recvAndUnpackFluxCC c1XState zeroFaceFld 0
      (fun _ _ => true)).flx.x1f 0 0 0 0 2 = 0 ∧
    (0 : ℚ) ≠ 7 := by
  refine ⟨rfl, by decide, by decide, by decide, rfl, ?_, by decide⟩
  have hL : unpackWriters c1XState 0 0 8 2 0 0 = [] := by decide
  have hb : unpackBflag c1XState 0 (fun _ _ => true) = false := by decide
  simp only [recvAndUnpackFluxCC, hb, Bool.false_eq_true, if_false]
  rw [hL]
  split_ifs <;> rfl

/-- One-block one-slot state for the C1 witness: the block is coarse
(level 0) and its flux-relevant slot-0 neighbor is at the finer level 1;
all receives are `received`, and the receive buffer holds 7. -/
def c1WState : FCState where
  nmb := 1
  nnghbr := 1
  nvar := 1
  nghbr := fun _ _ => ⟨0, 1, 0, 0, true⟩
  mblev := fun _ => 0
  gid0 := 0
  sWin := fun _ => ⟨2, 2, 0, 0, 0, 0⟩
  rWin := fun _ => ⟨2, 2, 0, 0, 0, 0⟩
  sData := fun _ _ _ _ => 0
  rData := fun _ _ _ _ => 7
  rFlxStat := fun _ _ => BoundaryCommStatus.received

/-- Witness for the amended C1: on `c1WState` the coarse block's x1 face
flux at the covered window face is overwritten with the buffer value, and
the call returns `complete`. -/
theorem c1_witness :
    (recvAndUnpackFluxCC c1WState zeroFaceFld 0 (fun _ _ => true)).status =
      TaskStatus.complete ∧
    (recvAndUnpackFluxCC c1WState zeroFaceFld 0
      (fun _ _ => true)).flx.x1f 0 0 0 0 2 =
      c1WState.rData 0 0 0 (flatIdxUnpack (c1WState.rWin 0) 2 0 0) :=
  ⟨(c1_amended_unpack_overwrites_coarse c1WState zeroFaceFld 0
      (fun _ _ => true) (by decide)).1,
   (c1_amended_unpack_overwrites_coarse c1WState zeroFaceFld 0
      (fun _ _ => true) (by decide)).2.1 0 0 0 2 0 0 (by decide) (by decide)
    (by decide) (by decide) (by decide) (by decide) (by decide) (by decide)⟩
